import Mathlib

/-
Verification of the allocation-interposition core
(Sources/CAllocationTracking/allocation_tracking.c).

The C file keeps per-thread state (`__thread int tracking_enabled`,
`__thread AllocationStats stats`), process-wide real-allocator bindings
(`real_malloc`, `real_free`) resolved once via `pthread_once` + `dlsym`,
and five entry points: `malloc`, `free`, `tracking_start`,
`tracking_stop`, `tracking_current`.

Counters are `uint64_t`, embedded as `Nat` with `% 2 ^ 64` at every
increment.  The real allocator's result and the `dlsym` results are
environment inputs, passed as explicit oracle arguments.
-/

namespace AllocTracking

def U64 : Nat := 2 ^ 64

/-- AllocationStats from include/allocation_tracking.h: three uint64_t
counters. -/
structure AllocationStats where
  allocations : Nat
  deallocations : Nat
  bytes_allocated : Nat
  deriving Repr, DecidableEq

def zeroStats : AllocationStats := ⟨0, 0, 0⟩

/-- Per-thread state: `__thread int tracking_enabled = 0` and
`__thread AllocationStats stats = {0}`. -/
structure ThreadState where
  tracking_enabled : Bool
  stats : AllocationStats
  deriving Repr, DecidableEq

/-- Initial value of a thread's state: disabled, all counters zero. -/
def initThread : ThreadState := { tracking_enabled := false, stats := zeroStats }

/-- Embedding of the C `malloc` body after the real allocator has
returned `realResult` (`none` models NULL).  First component of the
result is the value returned to the caller, second the updated
thread-local state.  Mirrors:
`if (tracking_enabled && ptr != NULL) { stats.allocations++; stats.bytes_allocated += size; } return ptr;` -/
def malloc (size : Nat) (realResult : Option Nat) (s : ThreadState) :
    Option Nat × ThreadState :=
  if s.tracking_enabled && realResult.isSome then
    (realResult,
      { s with stats :=
        { s.stats with
            allocations := (s.stats.allocations + 1) % U64,
            bytes_allocated := (s.stats.bytes_allocated + size) % U64 } })
  else
    (realResult, s)

/-- Embedding of the C `free` body.  First component: updated
thread-local state; second component: the pointer forwarded to the real
deallocation primitive (`real_free(ptr)` is called unconditionally, NULL
included).  Mirrors:
`if (tracking_enabled && ptr != NULL) { stats.deallocations++; } real_free(ptr);` -/
def free (ptr : Option Nat) (s : ThreadState) : ThreadState × Option Nat :=
  if s.tracking_enabled && ptr.isSome then
    ({ s with stats :=
        { s.stats with deallocations := (s.stats.deallocations + 1) % U64 } },
      ptr)
  else
    (s, ptr)

/-- `tracking_start`: `memset(&stats, 0, sizeof(stats)); tracking_enabled = 1;` -/
def tracking_start (_s : ThreadState) : ThreadState :=
  { tracking_enabled := true, stats := zeroStats }

/-- `tracking_stop`: `tracking_enabled = 0; return stats;` — first
component the returned copy, second the updated state. -/
def tracking_stop (s : ThreadState) : AllocationStats × ThreadState :=
  (s.stats, { s with tracking_enabled := false })

/-- `tracking_current`: `return stats;` -/
def tracking_current (s : ThreadState) : AllocationStats := s.stats

/-- One intercepted allocation or release on a thread, together with the
environment's contribution (the real allocator's result, resp. the
pointer the program releases). -/
inductive MFEvent where
  | malloc (size : Nat) (realResult : Option Nat)
  | free (ptr : Option Nat)
  deriving Repr, DecidableEq

/-- Effect of one intercepted call on the thread-local state. -/
def stepMF : MFEvent → ThreadState → ThreadState
  | MFEvent.malloc size r, s => (malloc size r s).2
  | MFEvent.free p, s => (free p s).1

/-- Run a sequence of intercepted malloc/free calls on one thread. -/
def runMF : List MFEvent → ThreadState → ThreadState
  | [], s => s
  | e :: rest, s => runMF rest (stepMF e s)

lemma stepMF_disabled (e : MFEvent) (s : ThreadState)
    (h : s.tracking_enabled = false) : stepMF e s = s := by
  cases e with
  | malloc size r => simp [stepMF, malloc, h]
  | free p => simp [stepMF, free, h]

lemma stepMF_enabled_of_enabled (e : MFEvent) (s : ThreadState) :
    (stepMF e s).tracking_enabled = s.tracking_enabled := by
  cases e with
  | malloc size r =>
      by_cases h : s.tracking_enabled && r.isSome <;>
        simp [stepMF, malloc, h]
  | free p =>
      by_cases h : s.tracking_enabled && p.isSome <;>
        simp [stepMF, free, h]

lemma runMF_disabled (evs : List MFEvent) (s : ThreadState)
    (h : s.tracking_enabled = false) : runMF evs s = s := by
  induction evs with
  | nil => rfl
  | cons e rest ih => simp [runMF, stepMF_disabled e s h, ih]

/-- Number of malloc events in a trace. -/
def numMallocs : List MFEvent → Nat
  | [] => 0
  | MFEvent.malloc _ _ :: rest => numMallocs rest + 1
  | MFEvent.free _ :: rest => numMallocs rest

/-- Number of free events in a trace. -/
def numFrees : List MFEvent → Nat
  | [] => 0
  | MFEvent.malloc _ _ :: rest => numFrees rest
  | MFEvent.free _ :: rest => numFrees rest + 1

/-- Sum of the sizes requested by the malloc events of a trace. -/
def totalBytes : List MFEvent → Nat
  | [] => 0
  | MFEvent.malloc size _ :: rest => size + totalBytes rest
  | MFEvent.free _ :: rest => totalBytes rest

/-- Event with a non-null environment outcome: the real allocator
returned a pointer, resp. the released pointer is non-null. -/
def succeeds : MFEvent → Bool
  | MFEvent.malloc _ r => r.isSome
  | MFEvent.free p => p.isSome

/-- No uint64 counter wraps when this event is applied to this state. -/
def noWrapB : MFEvent → ThreadState → Bool
  | MFEvent.malloc size _, s =>
      decide (s.stats.allocations + 1 < U64) &&
        decide (s.stats.bytes_allocated + size < U64)
  | MFEvent.free _, s => decide (s.stats.deallocations + 1 < U64)

lemma runMF_counts (evs : List MFEvent) : ∀ (s : ThreadState),
    s.tracking_enabled = true →
    (∀ e ∈ evs, succeeds e = true) →
    s.stats.allocations + numMallocs evs < U64 →
    s.stats.deallocations + numFrees evs < U64 →
    s.stats.bytes_allocated + totalBytes evs < U64 →
    runMF evs s =
      { tracking_enabled := true,
        stats := ⟨s.stats.allocations + numMallocs evs,
                  s.stats.deallocations + numFrees evs,
                  s.stats.bytes_allocated + totalBytes evs⟩ } := by
  induction evs with
  | nil =>
      intro s hen _ _ _ _
      cases s with
      | mk en st =>
          cases st
          simp_all [runMF, numMallocs, numFrees, totalBytes]
  | cons e rest ih =>
      intro s hen hsucc hA hD hB
      have hsrest : ∀ e₂ ∈ rest, succeeds e₂ = true := by
        intro e₂ hmem
        exact hsucc e₂ (List.mem_cons_of_mem _ hmem)
      cases e with
      | malloc size r =>
          have hr : r.isSome = true := by
            simpa [succeeds] using hsucc _ (List.mem_cons_self _ _)
          simp only [numMallocs, numFrees, totalBytes] at hA hD hB
          have hA1 : s.stats.allocations + 1 < U64 := by omega
          have hB1 : s.stats.bytes_allocated + size < U64 := by omega
          have hstep : stepMF (MFEvent.malloc size r) s =
              { tracking_enabled := true,
                stats := ⟨s.stats.allocations + 1, s.stats.deallocations,
                  s.stats.bytes_allocated + size⟩ } := by
            simp [stepMF, malloc, hen, hr, Nat.mod_eq_of_lt hA1,
              Nat.mod_eq_of_lt hB1]
          have hA2 : s.stats.allocations + 1 + numMallocs rest < U64 := by omega
          have hD2 : s.stats.deallocations + numFrees rest < U64 := by omega
          have hB2 : s.stats.bytes_allocated + size + totalBytes rest < U64 := by
            omega
          rw [runMF, hstep]
          rw [ih ⟨true, ⟨s.stats.allocations + 1, s.stats.deallocations,
            s.stats.bytes_allocated + size⟩⟩ rfl hsrest hA2 hD2 hB2]
          simp [numMallocs, numFrees, totalBytes, ThreadState.mk.injEq,
            AllocationStats.mk.injEq]
          omega
      | free p =>
          have hp : p.isSome = true := by
            simpa [succeeds] using hsucc _ (List.mem_cons_self _ _)
          simp only [numMallocs, numFrees, totalBytes] at hA hD hB
          have hD1 : s.stats.deallocations + 1 < U64 := by omega
          have hstep : stepMF (MFEvent.free p) s =
              { tracking_enabled := true,
                stats := ⟨s.stats.allocations, s.stats.deallocations + 1,
                  s.stats.bytes_allocated⟩ } := by
            simp [stepMF, free, hen, hp, Nat.mod_eq_of_lt hD1]
          have hA2 : s.stats.allocations + numMallocs rest < U64 := by omega
          have hD2 : s.stats.deallocations + 1 + numFrees rest < U64 := by omega
          have hB2 : s.stats.bytes_allocated + totalBytes rest < U64 := by omega
          rw [runMF, hstep]
          rw [ih ⟨true, ⟨s.stats.allocations, s.stats.deallocations + 1,
            s.stats.bytes_allocated⟩⟩ rfl hsrest hA2 hD2 hB2]
          simp [numMallocs, numFrees, totalBytes, ThreadState.mk.injEq,
            AllocationStats.mk.injEq]
          omega

/-- C1: after `tracking_start()`, a trace of N mallocs of sizes
s_1..s_N that all return non-null and M frees of non-null pointers, in
any interleaving, makes `tracking_stop()` return
allocations = N, deallocations = M, bytes_allocated = s_1 + ... + s_N
(provided no uint64 counter wraps). -/
theorem counting_correctness (s : ThreadState) (evs : List MFEvent)
    (hsucc : ∀ e ∈ evs, succeeds e = true)
    (hN : numMallocs evs < U64) (hM : numFrees evs < U64)
    (hB : totalBytes evs < U64) :
    (tracking_stop (runMF evs (tracking_start s))).1 =
      ⟨numMallocs evs, numFrees evs, totalBytes evs⟩ := by
  have h := runMF_counts evs (tracking_start s) rfl hsucc
    (by simpa [tracking_start, zeroStats] using hN)
    (by simpa [tracking_start, zeroStats] using hM)
    (by simpa [tracking_start, zeroStats] using hB)
  simp only [tracking_stop]
  rw [h]
  simp [tracking_start, zeroStats]

/-- C1 witness: start; malloc 10 and malloc 20 both non-null; free a
non-null pointer; stop returns allocations 2, deallocations 1,
bytes_allocated 30. -/
theorem counting_correctness_witness :
    (tracking_stop (runMF
      [MFEvent.malloc 10 (some 1), MFEvent.malloc 20 (some 2),
        MFEvent.free (some 1)] (tracking_start initThread))).1 =
      ⟨2, 1, 30⟩ := by
  have h := counting_correctness initThread
    [MFEvent.malloc 10 (some 1), MFEvent.malloc 20 (some 2),
      MFEvent.free (some 1)] (by decide) (by decide) (by decide) (by decide)
  rw [h]
  decide

/-- C7: `malloc(size)` returns the real allocator's result unmodified;
when that result is null no counter changes even if tracking is
enabled; when it is non-null and tracking is enabled the allocation
count grows by exactly 1 and bytes_allocated by exactly size, the
deallocation count unchanged (provided no uint64 counter wraps). -/
theorem malloc_transparent (size : Nat) (r : Option Nat) (s : ThreadState)
    (hA : s.stats.allocations + 1 < U64)
    (hB : s.stats.bytes_allocated + size < U64) :
    (malloc size r s).1 = r ∧
    (r = none → (malloc size r s).2 = s) ∧
    (r.isSome = true → s.tracking_enabled = true →
      (malloc size r s).2.stats.allocations = s.stats.allocations + 1 ∧
      (malloc size r s).2.stats.bytes_allocated = s.stats.bytes_allocated + size ∧
      (malloc size r s).2.stats.deallocations = s.stats.deallocations) := by
  refine ⟨?_, ?_, ?_⟩
  · unfold malloc
    split <;> rfl
  · intro hr
    subst hr
    simp [malloc]
  · intro hr hen
    simp [malloc, hr, hen, Nat.mod_eq_of_lt hA, Nat.mod_eq_of_lt hB]

/-- C7 witness: a tracked malloc of size 5 in state (1, 2, 3) returns
the real pointer and moves the stats to (2, 2, 8). -/
theorem malloc_transparent_witness :
    (malloc 5 (some 7) ⟨true, ⟨1, 2, 3⟩⟩).1 = some 7 ∧
    (some 7 = (none : Option Nat) →
      (malloc 5 (some 7) ⟨true, ⟨1, 2, 3⟩⟩).2 = ⟨true, ⟨1, 2, 3⟩⟩) ∧
    ((some 7 : Option Nat).isSome = true → (true : Bool) = true →
      (malloc 5 (some 7) ⟨true, ⟨1, 2, 3⟩⟩).2.stats.allocations = 2 ∧
      (malloc 5 (some 7) ⟨true, ⟨1, 2, 3⟩⟩).2.stats.bytes_allocated = 8 ∧
      (malloc 5 (some 7) ⟨true, ⟨1, 2, 3⟩⟩).2.stats.deallocations = 2) :=
  malloc_transparent 5 (some 7) ⟨true, ⟨1, 2, 3⟩⟩ (by decide) (by decide)

/-- C9: across a single intercepted malloc or free call each of the
three counters is non-decreasing, provided the uint64 increment does
not wrap (the code leaves 64-bit wraparound unhandled). -/
theorem counters_monotone (e : MFEvent) (s : ThreadState)
    (hw : noWrapB e s = true) :
    s.stats.allocations ≤ (stepMF e s).stats.allocations ∧
    s.stats.deallocations ≤ (stepMF e s).stats.deallocations ∧
    s.stats.bytes_allocated ≤ (stepMF e s).stats.bytes_allocated := by
  cases e with
  | malloc size r =>
      obtain ⟨en, a, d, b⟩ := s
      simp only [noWrapB, Bool.and_eq_true, decide_eq_true_eq] at hw
      obtain ⟨h1, h2⟩ := hw
      cases en <;> cases r <;>
        simp_all [stepMF, malloc, Nat.mod_eq_of_lt h1, Nat.mod_eq_of_lt h2]
  | free p =>
      obtain ⟨en, a, d, b⟩ := s
      simp only [noWrapB, decide_eq_true_eq] at hw
      cases en <;> cases p <;>
        simp_all [stepMF, free, Nat.mod_eq_of_lt hw]

/-- C9 witness: a tracked malloc of size 10 from the zero stats leaves
every counter at least as large as before. -/
theorem counters_monotone_witness :
    (0 : Nat) ≤ (stepMF (MFEvent.malloc 10 (some 1)) ⟨true, ⟨0, 0, 0⟩⟩).stats.allocations ∧
    (0 : Nat) ≤ (stepMF (MFEvent.malloc 10 (some 1)) ⟨true, ⟨0, 0, 0⟩⟩).stats.deallocations ∧
    (0 : Nat) ≤ (stepMF (MFEvent.malloc 10 (some 1)) ⟨true, ⟨0, 0, 0⟩⟩).stats.bytes_allocated :=
  counters_monotone (MFEvent.malloc 10 (some 1)) ⟨true, ⟨0, 0, 0⟩⟩ (by decide)

/-- C10: while tracking is enabled, `free(p)` for any non-null p adds
exactly 1 to the deallocation count and leaves the other counters
unchanged — the code never checks where p came from (provided the
uint64 counter does not wrap). -/
theorem free_counts_any_pointer (p : Option Nat) (s : ThreadState)
    (he : s.tracking_enabled = true) (hp : p.isSome = true)
    (hw : s.stats.deallocations + 1 < U64) :
    (free p s).1.stats.deallocations = s.stats.deallocations + 1 ∧
    (free p s).1.stats.allocations = s.stats.allocations ∧
    (free p s).1.stats.bytes_allocated = s.stats.bytes_allocated := by
  simp [free, he, hp, Nat.mod_eq_of_lt hw]

/-- C10 witness: freeing the pointer 99 — never returned by a tracked
malloc — in tracked state (5, 6, 7) moves deallocations to 7 and leaves
the other counters alone. -/
theorem free_counts_any_pointer_witness :
    (free (some 99) ⟨true, ⟨5, 6, 7⟩⟩).1.stats.deallocations = 7 ∧
    (free (some 99) ⟨true, ⟨5, 6, 7⟩⟩).1.stats.allocations = 5 ∧
    (free (some 99) ⟨true, ⟨5, 6, 7⟩⟩).1.stats.bytes_allocated = 7 :=
  free_counts_any_pointer (some 99) ⟨true, ⟨5, 6, 7⟩⟩ (by decide) (by decide)
    (by decide)

/-- C4: `tracking_start()` sets the calling thread's stats record to
all-zero and its enabled flag to true, from any prior state — in
particular a second `tracking_start()` zeroes the counters even when the
previous window was never stopped. -/
theorem reset_on_start (s : ThreadState) :
    tracking_start s = { tracking_enabled := true, stats := zeroStats } := rfl

/-- C5: after `tracking_stop()` and until the next `tracking_start()`,
no sequence of malloc/free calls on the thread changes its stats record,
and `tracking_current()` keeps returning exactly the snapshot that
`tracking_stop()` returned. -/
theorem freeze_on_stop (s : ThreadState) (evs : List MFEvent) :
    (runMF evs (tracking_stop s).2).stats = (tracking_stop s).1 ∧
    tracking_current (runMF evs (tracking_stop s).2) = (tracking_stop s).1 := by
  have hdis : (tracking_stop s).2.tracking_enabled = false := rfl
  rw [runMF_disabled evs _ hdis]
  exact ⟨rfl, rfl⟩

/-- C6: for every thread state, `free(NULL)` leaves the thread state
(in particular the deallocation count) unchanged and forwards the null
pointer to the real deallocation primitive; the embedding is a total
function, so the call never faults. -/
theorem free_null_noop (s : ThreadState) :
    free none s = (s, none) := by
  simp [free]

/-- Process-wide real-allocator bindings:
`static void* (*real_malloc)(size_t) = NULL; static void (*real_free)(void*) = NULL;`
A binding is an address (`some a`) or NULL (`none`). -/
structure ResolverState where
  real_malloc : Option Nat
  real_free : Option Nat
  deriving Repr, DecidableEq

def initResolver : ResolverState := ⟨none, none⟩

/-- Environment input: the two `dlsym(RTLD_NEXT, ...)` results, each an
address or NULL on lookup failure. -/
structure DlsymOracle where
  malloc_addr : Option Nat
  free_addr : Option Nat
  deriving Repr, DecidableEq

/-- `init_hooks`: stores the `dlsym` results into the bindings, with no
check of the results. -/
def init_hooks (o : DlsymOracle) (_r : ResolverState) : ResolverState :=
  ⟨o.malloc_addr, o.free_addr⟩

/-- State of `pthread_once_t init_once`. -/
inductive OnceState where
  | notStarted
  | inProgress
  | done
  deriving Repr, DecidableEq

/-- Outcome of a `pthread_once` call as seen by the calling thread:
either the call returns (with the updated once-state and bindings) or
it can never return. -/
inductive OnceOutcome where
  | ret (once : OnceState) (r : ResolverState)
  | deadlock
  deriving Repr, DecidableEq

/-- `pthread_once(&init_once, init_hooks)` for the calling thread.  Not
started: runs `init_hooks` to completion and marks the control done.
Already done: no-op.  In progress on this same thread (a call made from
inside `init_hooks`, e.g. an allocation performed by `dlsym`): the call
must not return before `init_hooks` has completed, and `init_hooks`
cannot complete before this call returns, so the call never returns. -/
def pthread_once (o : DlsymOracle) : OnceState → ResolverState → OnceOutcome
  | OnceState.notStarted, r => OnceOutcome.ret OnceState.done (init_hooks o r)
  | OnceState.inProgress, _ => OnceOutcome.deadlock
  | OnceState.done, r => OnceOutcome.ret OnceState.done r

/-- Process state visible to one thread: the shared once-control and
bindings, plus this thread's thread-local tracking state. -/
structure ProcState where
  once : OnceState
  resolver : ResolverState
  thread : ThreadState
  deriving Repr, DecidableEq

def initProc : ProcState := ⟨OnceState.notStarted, initResolver, initThread⟩

/-- Ways an entry point can fail to return normally. -/
inductive Crash where
  | deadlock
  | nullFunctionCall
  deriving Repr, DecidableEq

/-- Call into one of the five entry points, with the environment's
contribution for the interposed ones. -/
inductive ProcEvent where
  | malloc (size : Nat) (realResult : Option Nat)
  | free (ptr : Option Nat)
  | start
  | stop
  | current
  deriving Repr, DecidableEq

/-- One entry-point call at process level.  `malloc` and `free` first
run `pthread_once`, then invoke the corresponding binding — invoking a
NULL binding is a crash — then update the thread-local state exactly as
the C bodies do.  The tracking API touches only thread-local state. -/
def procStep (o : DlsymOracle) : ProcEvent → ProcState → Except Crash ProcState
  | ProcEvent.malloc size r, p =>
      match pthread_once o p.once p.resolver with
      | OnceOutcome.deadlock => Except.error Crash.deadlock
      | OnceOutcome.ret once' res =>
          match res.real_malloc with
          | none => Except.error Crash.nullFunctionCall
          | some _ => Except.ok ⟨once', res, (malloc size r p.thread).2⟩
  | ProcEvent.free ptr, p =>
      match pthread_once o p.once p.resolver with
      | OnceOutcome.deadlock => Except.error Crash.deadlock
      | OnceOutcome.ret once' res =>
          match res.real_free with
          | none => Except.error Crash.nullFunctionCall
          | some _ => Except.ok ⟨once', res, (free ptr p.thread).1⟩
  | ProcEvent.start, p => Except.ok { p with thread := tracking_start p.thread }
  | ProcEvent.stop, p => Except.ok { p with thread := (tracking_stop p.thread).2 }
  | ProcEvent.current, p => Except.ok p

/-- Run a sequence of entry-point calls, stopping at the first crash. -/
def procRun (o : DlsymOracle) : List ProcEvent → ProcState → Except Crash ProcState
  | [], p => Except.ok p
  | e :: rest, p =>
      match procStep o e p with
      | Except.error c => Except.error c
      | Except.ok p' => procRun o rest p'

/-- Resolver invariant: initialization is never pending across entry
points, and once it is done the bindings hold exactly the `dlsym`
results. -/
def ResolverInv (o : DlsymOracle) (p : ProcState) : Prop :=
  p.once ≠ OnceState.inProgress ∧
    (p.once = OnceState.done → p.resolver = ⟨o.malloc_addr, o.free_addr⟩)

lemma procStep_inv (o : DlsymOracle)
    (hm : o.malloc_addr.isSome = true) (hf : o.free_addr.isSome = true)
    (e : ProcEvent) (p : ProcState) (hp : ResolverInv o p) :
    ∃ p', procStep o e p = Except.ok p' ∧ ResolverInv o p' := by
  obtain ⟨hnp, hdone⟩ := hp
  obtain ⟨ma, hma⟩ := Option.isSome_iff_exists.mp hm
  obtain ⟨fa, hfa⟩ := Option.isSome_iff_exists.mp hf
  cases e with
  | malloc size r =>
      cases honce : p.once with
      | notStarted =>
          refine ⟨⟨OnceState.done, ⟨o.malloc_addr, o.free_addr⟩,
            (malloc size r p.thread).2⟩, ?_, ?_⟩
          · simp [procStep, honce, pthread_once, init_hooks, hma]
          · exact ⟨by simp, fun _ => rfl⟩
      | inProgress => exact absurd honce hnp
      | done =>
          refine ⟨⟨OnceState.done, ⟨o.malloc_addr, o.free_addr⟩,
            (malloc size r p.thread).2⟩, ?_, ?_⟩
          · simp [procStep, honce, pthread_once, hdone honce, hma]
          · exact ⟨by simp, fun _ => rfl⟩
  | free ptr =>
      cases honce : p.once with
      | notStarted =>
          refine ⟨⟨OnceState.done, ⟨o.malloc_addr, o.free_addr⟩,
            (free ptr p.thread).1⟩, ?_, ?_⟩
          · simp [procStep, honce, pthread_once, init_hooks, hfa]
          · exact ⟨by simp, fun _ => rfl⟩
      | inProgress => exact absurd honce hnp
      | done =>
          refine ⟨⟨OnceState.done, ⟨o.malloc_addr, o.free_addr⟩,
            (free ptr p.thread).1⟩, ?_, ?_⟩
          · simp [procStep, honce, pthread_once, hdone honce, hfa]
          · exact ⟨by simp, fun _ => rfl⟩
  | start =>
      exact ⟨_, rfl, hnp, hdone⟩
  | stop =>
      exact ⟨_, rfl, hnp, hdone⟩
  | current =>
      exact ⟨_, rfl, hnp, hdone⟩

lemma procRun_inv (o : DlsymOracle)
    (hm : o.malloc_addr.isSome = true) (hf : o.free_addr.isSome = true) :
    ∀ (evs : List ProcEvent) (p : ProcState), ResolverInv o p →
      ∃ p', procRun o evs p = Except.ok p' ∧ ResolverInv o p' := by
  intro evs
  induction evs with
  | nil => exact fun p hp => ⟨p, rfl, hp⟩
  | cons e rest ih =>
      intro p hp
      obtain ⟨p₁, hstep, hp₁⟩ := procStep_inv o hm hf e p hp
      obtain ⟨p₂, hrun, hp₂⟩ := ih p₁ hp₁
      exact ⟨p₂, by simp [procRun, hstep, hrun], hp₂⟩

/-- C2 (amended): provided both `dlsym` lookups succeed, every sequence
of entry-point calls from the initial process state runs without a
crash — in particular no call to malloc or free ever invokes a null
function pointer and none deadlocks — and whenever initialization has
completed, both bindings equal the same non-null resolved addresses
(so they never change afterwards). -/
theorem resolver_init (o : DlsymOracle)
    (hm : o.malloc_addr.isSome = true) (hf : o.free_addr.isSome = true)
    (evs : List ProcEvent) :
    ∃ p', procRun o evs initProc = Except.ok p' ∧
      (p'.once = OnceState.done →
        p'.resolver.real_malloc = o.malloc_addr ∧
          p'.resolver.real_free = o.free_addr ∧
          p'.resolver.real_malloc.isSome = true ∧
          p'.resolver.real_free.isSome = true) := by
  obtain ⟨p', hrun, hnp, hdone⟩ :=
    procRun_inv o hm hf evs initProc ⟨by simp [initProc], by simp [initProc]⟩
  refine ⟨p', hrun, fun h => ?_⟩
  rw [hdone h]
  exact ⟨rfl, rfl, hm, hf⟩

/-- C2 witness: with resolved addresses 100 and 200, a malloc followed
by a free runs crash-free from the initial state and leaves both
bindings at the resolved addresses. -/
theorem resolver_init_witness :
    ∃ p', procRun ⟨some 100, some 200⟩
        [ProcEvent.malloc 8 (some 1), ProcEvent.free (some 1)] initProc =
          Except.ok p' ∧
      (p'.once = OnceState.done →
        p'.resolver.real_malloc = some 100 ∧
          p'.resolver.real_free = some 200 ∧
          p'.resolver.real_malloc.isSome = true ∧
          p'.resolver.real_free.isSome = true) := by
  obtain ⟨p', h1, h2⟩ := resolver_init ⟨some 100, some 200⟩ (by decide) (by decide)
    [ProcEvent.malloc 8 (some 1), ProcEvent.free (some 1)]
  exact ⟨p', h1, h2⟩

/-- C2 counterexample: when both `dlsym` lookups fail, `init_hooks`
still completes and marks the once-control done, yet the bindings are
NULL — and the very malloc call that ran the initialization then
invokes a null function pointer.  The claim as stated (bindings
non-null after initialization, no null-function-pointer call ever) is
false on the code, which never checks the `dlsym` results. -/
theorem resolver_null_counterexample :
    pthread_once ⟨none, none⟩ OnceState.notStarted initResolver =
        OnceOutcome.ret OnceState.done ⟨none, none⟩ ∧
      procRun ⟨none, none⟩ [ProcEvent.malloc 8 (some 1)] initProc =
        Except.error Crash.nullFunctionCall :=
  ⟨rfl, rfl⟩

/-- C3: an allocation made by the resolution mechanism itself — malloc
re-entered while `init_once` is in progress on the same thread —
reaches `pthread_once` on an in-progress once-control and can never
return: a self-deadlock, contradicting the requirement that such
internal allocations do not deadlock against the one-time-init guard. -/
theorem reentrant_init_deadlock :
    procStep ⟨some 100, some 200⟩ (ProcEvent.malloc 8 (some 1))
        ⟨OnceState.inProgress, initResolver, initThread⟩ =
      Except.error Crash.deadlock := rfl

/-- Thread identifiers for the multi-thread view. -/
abbrev ThreadId := Nat

/-- Thread-local effect of one entry-point call (`__thread` state: each
thread has its own copy; the tracking counters involve no shared
memory). -/
def stepThread : ProcEvent → ThreadState → ThreadState
  | ProcEvent.malloc size r, s => (malloc size r s).2
  | ProcEvent.free p, s => (free p s).1
  | ProcEvent.start, s => tracking_start s
  | ProcEvent.stop, s => (tracking_stop s).2
  | ProcEvent.current, s => s

/-- Per-thread state of the whole process. -/
abbrev GlobalState := ThreadId → ThreadState

/-- Every thread starts disabled with zero counters. -/
def initGlobal : GlobalState := fun _ => initThread

/-- An entry-point call on a thread updates only that thread's state. -/
def stepGlobal (g : GlobalState) (te : ThreadId × ProcEvent) : GlobalState :=
  fun u => if u = te.1 then stepThread te.2 (g te.1) else g u

/-- Run an interleaving of entry-point calls from many threads. -/
def runGlobal : List (ThreadId × ProcEvent) → GlobalState → GlobalState
  | [], g => g
  | te :: rest, g => runGlobal rest (stepGlobal g te)

lemma stepThread_initThread (e : ProcEvent) (h : e ≠ ProcEvent.start) :
    stepThread e initThread = initThread := by
  cases e with
  | malloc size r => simp [stepThread, malloc, initThread]
  | free p => simp [stepThread, free, initThread]
  | start => exact absurd rfl h
  | stop => rfl
  | current => rfl

lemma runGlobal_no_start (evs : List (ThreadId × ProcEvent)) (t : ThreadId) :
    ∀ (g : GlobalState), g t = initThread →
      (∀ te ∈ evs, te.1 = t → te.2 ≠ ProcEvent.start) →
      runGlobal evs g t = initThread := by
  induction evs with
  | nil => exact fun g hg _ => hg
  | cons te rest ih =>
      intro g hg hno
      refine ih _ ?_ fun te₂ hmem => hno te₂ (List.mem_cons_of_mem _ hmem)
      by_cases ht : t = te.1
      · have hne : te.2 ≠ ProcEvent.start := hno te (List.mem_cons_self _ _) ht.symm
        have hgte : g te.1 = initThread := by rw [← ht]; exact hg
        simp [stepGlobal, ht, hgte, stepThread_initThread te.2 hne]
      · simp [stepGlobal, ht, hg]

/-- C8: a thread that never calls `tracking_start()` observes
allocations 0, deallocations 0, bytes_allocated 0 from
`tracking_current()` after any interleaving of malloc, free and
tracking calls across all threads of the process. -/
theorem thread_isolation (evs : List (ThreadId × ProcEvent)) (t : ThreadId)
    (hno : ∀ te ∈ evs, te.1 = t → te.2 ≠ ProcEvent.start) :
    tracking_current (runGlobal evs initGlobal t) = ⟨0, 0, 0⟩ := by
  rw [runGlobal_no_start evs t initGlobal rfl hno]
  rfl

/-- C8 witness: thread 1 tracks and allocates, thread 0 mallocs and
frees without ever starting tracking; thread 0 still reads all-zero
stats. -/
theorem thread_isolation_witness :
    tracking_current (runGlobal
      [(1, ProcEvent.start), (1, ProcEvent.malloc 10 (some 5)),
        (0, ProcEvent.malloc 20 (some 6)), (0, ProcEvent.free (some 6)),
        (1, ProcEvent.stop), (0, ProcEvent.current)] initGlobal 0) =
      ⟨0, 0, 0⟩ :=
  thread_isolation
    [(1, ProcEvent.start), (1, ProcEvent.malloc 10 (some 5)),
      (0, ProcEvent.malloc 20 (some 6)), (0, ProcEvent.free (some 6)),
      (1, ProcEvent.stop), (0, ProcEvent.current)] 0 (by decide)

end AllocTracking
